import Mathlib

/-!
Verification of the build-orchestration core of the Leo `build` command
(`src/leo/commands/build.rs`).  The orchestrator `BuildCommand::output` is
embedded shallowly as a writer/exception computation over an environment of
external collaborators (manifest loading, package-file existence checks and
reads/writes, the compiler frontend, constraint synthesis).  Filesystem paths
are modelled as lists of components; `PathBuf::push` is list append and
`PathBuf::pop` drops the last component.  The circuit codec
(`SerializedCircuit` / `CircuitSynthesizer`), which lives outside the given
source tree, is modelled from the spec and implemented concretely so that its
round-trip law can be proved.
-/

/-- A filesystem path, as its list of components (`PathBuf`). -/
abbrev FsPath : Type := List String

/-- Modelled from the spec (§7): the typed error kinds a build can return
(`CLIError` is defined outside the given source tree). -/
inductive CLIError
  | manifestError (s : String)
  | compileError (s : String)
  | synthesisError (s : String)
  | codecError (s : String)
  | checksumError (s : String)
  | ioError (s : String)
deriving DecidableEq, Repr

instance {ε α : Type} [DecidableEq ε] [DecidableEq α] :
    DecidableEq (Except ε α) := fun x y =>
  match x, y with
  | Except.ok a, Except.ok b =>
    if h : a = b then isTrue (by rw [h]) else isFalse (by simp [h])
  | Except.error a, Except.error b =>
    if h : a = b then isTrue (by rw [h]) else isFalse (by simp [h])
  | Except.ok _, Except.error _ => isFalse (by simp)
  | Except.error _, Except.ok _ => isFalse (by simp)

/-- Modelled from the spec (§3): the opaque compiled `Program`
(`Compiler<Fq, EdwardsGroupType>`), duplicable with value-copy semantics.
Its structure is irrelevant to the orchestrator, so it is a wrapped tag. -/
structure Program where
  tag : Nat
deriving DecidableEq, Repr

/-- Modelled from the spec (§3, glossary): an R1CS variable is either an
input variable or an auxiliary variable (the `Index` type of the constraint
system library). -/
inductive Index
  | input (n : Nat)
  | aux (n : Nat)
deriving DecidableEq, Repr

/-- Modelled from the spec (glossary): a linear combination is a weighted sum
of variables; coefficients are opaque field elements, modelled as `Nat`. -/
abbrev LinearCombination : Type := List (Nat × Index)

/-- Modelled from the spec (§3, §4.4): the accumulated constraint system —
three parallel sequences of linear combinations `A`, `B`, `C` plus the input
and auxiliary assignment sequences (`CircuitSynthesizer<Bls12_377>`, defined
outside the given source tree; field names follow `build.rs` lines 132-137,
with `at` renamed `at_` because `at` is reserved in Lean). -/
structure CircuitSynthesizer where
  at_ : List LinearCombination
  bt : List LinearCombination
  ct : List LinearCombination
  input_assignment : List Nat
  aux_assignment : List Nat
deriving DecidableEq, Repr

/-- `num_constraints` of the synthesizer: the length of the `A` sequence. -/
def CircuitSynthesizer.num_constraints (cs : CircuitSynthesizer) : Nat :=
  cs.at_.length

/-- Modelled from the spec (§3, §4.5): the portable, self-describing textual
snapshot of a constraint system's structural data, as a structure holding the
counts and the structural fields (defined outside the given source tree). -/
structure SerializedCircuit where
  num_inputs : Nat
  num_aux : Nat
  num_constraints : Nat
  input_assignment : List Nat
  aux_assignment : List Nat
  at_ : List LinearCombination
  bt : List LinearCombination
  ct : List LinearCombination
deriving DecidableEq, Repr

/-- `SerializedCircuit::from`: structural conversion from a synthesizer. -/
def SerializedCircuit.from (cs : CircuitSynthesizer) : SerializedCircuit where
  num_inputs := cs.input_assignment.length
  num_aux := cs.aux_assignment.length
  num_constraints := cs.at_.length
  input_assignment := cs.input_assignment
  aux_assignment := cs.aux_assignment
  at_ := cs.at_
  bt := cs.bt
  ct := cs.ct

/-- `CircuitSynthesizer::try_from`: structural conversion back from the
serialized form (fallible in the source because field deserialization can
fail; the structural part modelled here always succeeds). -/
def CircuitSynthesizer.try_from (sc : SerializedCircuit) :
    Except CLIError CircuitSynthesizer :=
  Except.ok ⟨sc.at_, sc.bt, sc.ct, sc.input_assignment, sc.aux_assignment⟩

/-- Encode one natural number as text. -/
def natChars (n : Nat) : List Char := List.replicate n 'x' ++ [',']

/-- Decode one natural number, returning the unread remainder. -/
def readNat : List Char → Option (Nat × List Char)
  | [] => none
  | c :: rest =>
    if c = ',' then some (0, rest)
    else if c = 'x' then
      match readNat rest with
      | some (n, r) => some (n + 1, r)
      | none => none
    else none

/-- Encode a length-prefixed sequence. -/
def seqChars (f : α → List Char) (l : List α) : List Char :=
  natChars l.length ++ (l.map f).flatten

/-- Decode exactly `k` consecutive elements. -/
def readCount (p : List Char → Option (α × List Char)) :
    Nat → List Char → Option (List α × List Char)
  | 0, s => some ([], s)
  | Nat.succ k, s =>
    match p s with
    | some (a, s1) =>
      match readCount p k s1 with
      | some (l, s2) => some (a :: l, s2)
      | none => none
    | none => none

/-- Decode a length-prefixed sequence. -/
def readSeq (p : List Char → Option (α × List Char)) (s : List Char) :
    Option (List α × List Char) :=
  match readNat s with
  | some (n, s1) => readCount p n s1
  | none => none

/-- Encode a variable index. -/
def indexChars : Index → List Char
  | Index.input n => natChars 0 ++ natChars n
  | Index.aux n => natChars 1 ++ natChars n

/-- Decode a variable index. -/
def readIndex (s : List Char) : Option (Index × List Char) :=
  match readNat s with
  | some (t, s1) =>
    match readNat s1 with
    | some (n, s2) =>
      if t = 0 then some (Index.input n, s2)
      else if t = 1 then some (Index.aux n, s2)
      else none
    | none => none
  | none => none

/-- Encode one weighted term of a linear combination. -/
def termChars (t : Nat × Index) : List Char := natChars t.1 ++ indexChars t.2

/-- Decode one weighted term. -/
def readTerm (s : List Char) : Option ((Nat × Index) × List Char) :=
  match readNat s with
  | some (c, s1) =>
    match readIndex s1 with
    | some (i, s2) => some ((c, i), s2)
    | none => none
  | none => none

/-- Encode a linear combination. -/
def lcChars (lc : LinearCombination) : List Char := seqChars termChars lc

/-- Decode a linear combination. -/
def readLC (s : List Char) : Option (LinearCombination × List Char) :=
  readSeq readTerm s

/-- `SerializedCircuit::to_json_string`: the full textual encoding (fallible
in the source because serde serialization returns `Result`; the modelled
encoder always succeeds). -/
def SerializedCircuit.to_json_string (sc : SerializedCircuit) :
    Except CLIError String :=
  Except.ok (String.mk
    (natChars sc.num_inputs ++ natChars sc.num_aux ++
     natChars sc.num_constraints ++
     seqChars natChars sc.input_assignment ++
     seqChars natChars sc.aux_assignment ++
     seqChars lcChars sc.at_ ++ seqChars lcChars sc.bt ++
     seqChars lcChars sc.ct))

/-- `SerializedCircuit::from_json_string`: the full textual decoding. -/
def SerializedCircuit.from_json_string (s : String) :
    Except CLIError SerializedCircuit :=
  match readNat s.data with
  | some (ni, r1) =>
    match readNat r1 with
    | some (na, r2) =>
      match readNat r2 with
      | some (nc, r3) =>
        match readSeq readNat r3 with
        | some (ia, r4) =>
          match readSeq readNat r4 with
          | some (aa, r5) =>
            match readSeq readLC r5 with
            | some (a, r6) =>
              match readSeq readLC r6 with
              | some (b, r7) =>
                match readSeq readLC r7 with
                | some (c, r8) =>
                  if r8 = [] then
                    Except.ok ⟨ni, na, nc, ia, aa, a, b, c⟩
                  else Except.error (CLIError.codecError "trailing data")
                | none => Except.error (CLIError.codecError "C terms")
              | none => Except.error (CLIError.codecError "B terms")
            | none => Except.error (CLIError.codecError "A terms")
          | none => Except.error (CLIError.codecError "aux assignment")
        | none => Except.error (CLIError.codecError "input assignment")
      | none => Except.error (CLIError.codecError "constraint count")
    | none => Except.error (CLIError.codecError "aux count")
  | none => Except.error (CLIError.codecError "input count")

/-- One observable action of a build, with the path it resolves against. -/
inductive Effect
  | compileLib (name : String) (file outDir : FsPath)
  | createOutputs (p : FsPath)
  | readInput (name : String) (p : FsPath)
  | readState (name : String) (p : FsPath)
  | compileMain (name : String) (file outDir : FsPath)
  | synthesize (prog : Program)
  | writeCircuit (name : String) (p : FsPath) (content : String)
  | readCircuit (name : String) (p : FsPath)
  | checkChecksum (name : String) (p : FsPath)
  | readChecksum (name : String) (p : FsPath)
  | writeChecksum (name : String) (p : FsPath) (content : String)
deriving DecidableEq, Repr

/-- Outcome of a computation: a value, a returned error, or a panic. -/
inductive Res (α : Type)
  | ok (a : α)
  | err (e : CLIError)
  | panicked
deriving DecidableEq, Repr

/-- The writer/exception monad: an outcome plus the effect trace. -/
def M (α : Type) : Type := Res α × List Effect

instance {α : Type} [DecidableEq α] : DecidableEq (M α) :=
  inferInstanceAs (DecidableEq (Res α × List Effect))

/-- Monadic bind: effects accumulate in order; errors and panics stop. -/
def M.bind {α β : Type} (x : M α) (f : α → M β) : M β :=
  match x with
  | (Res.ok a, l) => ((f a).1, l ++ (f a).2)
  | (Res.err e, l) => (Res.err e, l)
  | (Res.panicked, l) => (Res.panicked, l)

instance : Monad M where
  pure a := (Res.ok a, [])
  bind := M.bind

/-- Record one observable action. -/
def emit (e : Effect) : M Unit := (Res.ok (), [e])

/-- The `?` operator: propagate a `Result` error to the caller. -/
def liftE {α : Type} : Except CLIError α → M α
  | Except.ok a => (Res.ok a, [])
  | Except.error e => (Res.err e, [])

/-- `.unwrap()`: terminate abnormally when the `Result` is an error. -/
def unwrapE {α : Type} : Except CLIError α → M α
  | Except.ok a => (Res.ok a, [])
  | Except.error _ => (Res.panicked, [])

/-- Names fixed by the package layout (spec §6): `src/lib.leo`,
`src/main.leo`, `outputs/` (the `leo_package` constants referenced by
`build.rs`, defined outside the given source tree). -/
def SOURCE_DIRECTORY_NAME : String := "src"

/-- Library source file name (spec §6). -/
def LIB_FILE_NAME : String := "lib.leo"

/-- Main source file name (spec §6). -/
def MAIN_FILE_NAME : String := "main.leo"

/-- Outputs directory name (spec §6). -/
def OUTPUTS_DIRECTORY_NAME : String := "outputs"

/-- Modelled from the spec (§2, §4.3, §4.6): the external collaborators of
the orchestrator — manifest loading, filesystem queries, package file
reads/writes, the compiler frontend, program checksum and constraint
synthesis — each a function of the arguments `build.rs` passes it, returning
`Except` where the source call site applies `?`. -/
structure Env where
  manifestName : FsPath → Except CLIError String
  isFile : FsPath → Bool
  libExists : FsPath → Bool
  mainExists : FsPath → Bool
  parseProgramWithoutInput :
    String → FsPath → FsPath → Except CLIError Program
  createOutputsDirectory : FsPath → Except CLIError Unit
  readInputFile : String → FsPath → Except CLIError String
  readStateFile : String → FsPath → Except CLIError String
  parseProgramWithInput :
    String → FsPath → FsPath → String → String → Except CLIError Program
  checksum : Program → Except CLIError String
  compileConstraints :
    Program → CircuitSynthesizer → Except CLIError CircuitSynthesizer
  writeCircuitFile : String → FsPath → String → Except CLIError Unit
  readCircuitFile : String → FsPath → Except CLIError String
  checksumFileExists : String → FsPath → Bool
  readChecksumFile : String → FsPath → Except CLIError String
  writeChecksumFile : String → FsPath → String → Except CLIError Unit

/-- `build.rs` lines 65-68: the package path is the working directory,
truncated to its parent when it points at a file. -/
def sanitizedPackagePath (env : Env) (path : FsPath) : FsPath :=
  if env.isFile path then path.dropLast else path

/-- The argument-match input of the CLI (`clap::ArgMatches`), opaque to the
build command; modelled as the raw argument list. -/
structure ArgMatches where
  raw : List String
deriving DecidableEq, Repr

namespace BuildCommand

/-- `BuildCommand::parse` (`build.rs` lines 52-54): ignores its arguments
and returns `Ok(())`. -/
def parse (_arguments : ArgMatches) : Except CLIError Unit :=
  Except.ok ()

/-- `build.rs` lines 82-97: if a library source exists, compile it (result
discarded); a compile error propagates via `?`. -/
def libStage (env : Env) (package_name : String)
    (package_path output_directory : FsPath) : M Unit :=
  if env.libExists package_path then do
    let lib_file_path :=
      package_path ++ [SOURCE_DIRECTORY_NAME, LIB_FILE_NAME]
    emit (Effect.compileLib package_name lib_file_path output_directory)
    let _program ← liftE (env.parseProgramWithoutInput package_name
      lib_file_path output_directory)
    pure ()
  else pure ()

/-- `build.rs` lines 100-187, body of the `MainFile::exists_at` branch:
create the outputs directory, read input and state (against the original
`path`), compile main, compute the checksum, synthesize and round-trip the
circuit (writes against `path`, read-back against `package_path`), compare
and conditionally persist the checksum. -/
def mainStage (env : Env) (package_name : String)
    (path package_path output_directory : FsPath) : M (Program × Bool) := do
  emit (Effect.createOutputs package_path)
  liftE (env.createOutputsDirectory package_path)
  let main_file_path :=
    package_path ++ [SOURCE_DIRECTORY_NAME, MAIN_FILE_NAME]
  emit (Effect.readInput package_name path)
  let input_string ← liftE (env.readInputFile package_name path)
  emit (Effect.readState package_name path)
  let state_string ← liftE (env.readStateFile package_name path)
  emit (Effect.compileMain package_name main_file_path output_directory)
  let program ← liftE (env.parseProgramWithInput package_name main_file_path
    output_directory input_string state_string)
  let program_checksum ← liftE (env.checksum program)
  let cs : CircuitSynthesizer := ⟨[], [], [], [], []⟩
  let temporary_program := program
  emit (Effect.synthesize temporary_program)
  let cs ← liftE (env.compileConstraints temporary_program cs)
  let circuit_object := SerializedCircuit.from cs
  let json ← unwrapE circuit_object.to_json_string
  emit (Effect.writeCircuit package_name path json)
  liftE (env.writeCircuitFile package_name path json)
  emit (Effect.readCircuit package_name package_path)
  let serialized ← liftE (env.readCircuitFile package_name package_path)
  let deserialized ← unwrapE (SerializedCircuit.from_json_string serialized)
  let _circuit_synthesizer ←
    unwrapE (CircuitSynthesizer.try_from deserialized)
  emit (Effect.checkChecksum package_name package_path)
  let checksum_differs ←
    if env.checksumFileExists package_name package_path then do
      emit (Effect.readChecksum package_name package_path)
      let previous_checksum ←
        liftE (env.readChecksumFile package_name package_path)
      pure (program_checksum != previous_checksum)
    else pure true
  if checksum_differs then do
    emit (Effect.writeChecksum package_name path program_checksum)
    liftE (env.writeChecksumFile package_name path program_checksum)
  else pure ()
  pure (program, checksum_differs)

/-- `BuildCommand::output` (`build.rs` lines 57-195).  `path` stands for the
value of `current_dir()`; the manifest is loaded against it, the package
path is sanitized, and the library and main stages run in order.  Returns
`none` when no main source exists. -/
def output (env : Env) (path : FsPath) : M (Option (Program × Bool)) := do
  let package_name ← liftE (env.manifestName path)
  let package_path := sanitizedPackagePath env path
  let output_directory := package_path ++ [OUTPUTS_DIRECTORY_NAME]
  libStage env package_name package_path output_directory
  if env.mainExists package_path then do
    let r ← mainStage env package_name path package_path output_directory
    pure (some r)
  else
    pure none

end BuildCommand

/-- The unconditional part of a successful main-stage trace. -/
def mainTraceBase (name : String) (path pp od : FsPath) (p : Program)
    (json : String) : List Effect :=
  [Effect.createOutputs pp, Effect.readInput name path,
   Effect.readState name path,
   Effect.compileMain name (pp ++ [SOURCE_DIRECTORY_NAME, MAIN_FILE_NAME]) od,
   Effect.synthesize p, Effect.writeCircuit name path json,
   Effect.readCircuit name pp, Effect.checkChecksum name pp]

/-- Which path each observable action of a build resolves against: the
library path, outputs-directory creation, main path, circuit read-back and
checksum existence check/read use the sanitized package path, while the
input/state reads, the circuit write and the checksum write use the
original working-directory path. -/
def effectPathSpec (env : Env) (path : FsPath) : Effect → Prop
  | Effect.compileLib _ f o =>
      f = sanitizedPackagePath env path ++
        [SOURCE_DIRECTORY_NAME, LIB_FILE_NAME] ∧
      o = sanitizedPackagePath env path ++ [OUTPUTS_DIRECTORY_NAME]
  | Effect.createOutputs q => q = sanitizedPackagePath env path
  | Effect.readInput _ q => q = path
  | Effect.readState _ q => q = path
  | Effect.compileMain _ f o =>
      f = sanitizedPackagePath env path ++
        [SOURCE_DIRECTORY_NAME, MAIN_FILE_NAME] ∧
      o = sanitizedPackagePath env path ++ [OUTPUTS_DIRECTORY_NAME]
  | Effect.synthesize _ => True
  | Effect.writeCircuit _ q _ => q = path
  | Effect.readCircuit _ q => q = sanitizedPackagePath env path
  | Effect.checkChecksum _ q => q = sanitizedPackagePath env path
  | Effect.readChecksum _ q => q = sanitizedPackagePath env path
  | Effect.writeChecksum _ q _ => q = path

/-- An all-success environment: manifest loads as `pkg`, the working
directory is a directory, no library source, a main source, all reads and
writes succeed, and the circuit file reads back as the encoding of the
empty constraint system. -/
def envOk : Env where
  manifestName := fun _ => Except.ok "pkg"
  isFile := fun _ => false
  libExists := fun _ => false
  mainExists := fun _ => true
  parseProgramWithoutInput := fun _ _ _ => Except.ok ⟨0⟩
  createOutputsDirectory := fun _ => Except.ok ()
  readInputFile := fun _ _ => Except.ok "in"
  readStateFile := fun _ _ => Except.ok "st"
  parseProgramWithInput := fun _ _ _ _ _ => Except.ok ⟨1⟩
  checksum := fun _ => Except.ok "digest"
  compileConstraints := fun _ cs => Except.ok cs
  writeCircuitFile := fun _ _ _ => Except.ok ()
  readCircuitFile := fun _ _ => Except.ok ",,,,,,,,"
  checksumFileExists := fun _ _ => false
  readChecksumFile := fun _ _ => Except.ok "old"
  writeChecksumFile := fun _ _ _ => Except.ok ()

/-- The trace of a successful first build under `envOk`. -/
def trOk : List Effect :=
  [Effect.createOutputs [], Effect.readInput "pkg" [],
   Effect.readState "pkg" [],
   Effect.compileMain "pkg" ["src", "main.leo"] ["outputs"],
   Effect.synthesize ⟨1⟩, Effect.writeCircuit "pkg" [] ",,,,,,,,",
   Effect.readCircuit "pkg" [], Effect.checkChecksum "pkg" [],
   Effect.writeChecksum "pkg" [] "digest"]

/-- `envOk` with no main source file. -/
def envNoMain : Env := { envOk with mainExists := fun _ => false }

/-- `envOk` with a library source whose compilation fails. -/
def envLibErr : Env := { envOk with
  libExists := fun _ => true
  parseProgramWithoutInput := fun _ _ _ =>
    Except.error (CLIError.compileError "bad lib") }

/-- `envOk` with a circuit file that reads back as undecodable text. -/
def envBadCircuit : Env :=
  { envOk with readCircuitFile := fun _ _ => Except.ok "z" }

/-- `envOk` where the working directory is the file `["a", "b"]`. -/
def envFileRoot : Env :=
  { envOk with isFile := fun p => decide (p = ["a", "b"]) }

/-- `envOk` where both the checksum computation and constraint synthesis
would fail, with different errors. -/
def envDoubleFail : Env := { envOk with
  checksum := fun _ => Except.error (CLIError.ioError "checksum failed")
  compileConstraints := fun _ _ =>
    Except.error (CLIError.synthesisError "synthesis failed") }

theorem readNat_natChars (n : Nat) (rest : List Char) :
    readNat (natChars n ++ rest) = some (n, rest) := by
  induction n with
  | zero => simp [natChars, readNat]
  | succ k ih =>
    have h : natChars (k + 1) ++ rest = 'x' :: (natChars k ++ rest) := by
      simp [natChars, List.replicate_succ]
    rw [h]
    simp [readNat, ih]

theorem readCount_seq {α : Type} (p : List Char → Option (α × List Char))
    (f : α → List Char) (hp : ∀ a rest, p (f a ++ rest) = some (a, rest))
    (l : List α) (rest : List Char) :
    readCount p l.length ((l.map f).flatten ++ rest) = some (l, rest) := by
  induction l with
  | nil => simp [readCount]
  | cons a t ih =>
    simp only [List.map_cons, List.flatten_cons, List.length_cons,
      List.append_assoc, readCount, hp, ih]

theorem readSeq_seqChars {α : Type} (p : List Char → Option (α × List Char))
    (f : α → List Char) (hp : ∀ a rest, p (f a ++ rest) = some (a, rest))
    (l : List α) (rest : List Char) :
    readSeq p (seqChars f l ++ rest) = some (l, rest) := by
  simp only [seqChars, readSeq, List.append_assoc, readNat_natChars,
    readCount_seq p f hp]

theorem readIndex_indexChars (i : Index) (rest : List Char) :
    readIndex (indexChars i ++ rest) = some (i, rest) := by
  cases i <;>
    simp [indexChars, readIndex, List.append_assoc, readNat_natChars]

theorem readTerm_termChars (t : Nat × Index) (rest : List Char) :
    readTerm (termChars t ++ rest) = some (t, rest) := by
  simp [termChars, readTerm, List.append_assoc, readNat_natChars,
    readIndex_indexChars]

theorem readLC_lcChars (lc : LinearCombination) (rest : List Char) :
    readLC (lcChars lc ++ rest) = some (lc, rest) :=
  readSeq_seqChars readTerm termChars readTerm_termChars lc rest

theorem readSeq_seqChars_closed {α : Type}
    (p : List Char → Option (α × List Char)) (f : α → List Char)
    (hp : ∀ a rest, p (f a ++ rest) = some (a, rest)) (l : List α) :
    readSeq p (seqChars f l) = some (l, []) := by
  simpa using readSeq_seqChars p f hp l []

theorem from_json_string_to_json_string (sc : SerializedCircuit)
    (json : String)
    (h : SerializedCircuit.to_json_string sc = Except.ok json) :
    SerializedCircuit.from_json_string json = Except.ok sc := by
  simp only [SerializedCircuit.to_json_string, Except.ok.injEq] at h
  subst h
  simp [SerializedCircuit.from_json_string, List.append_assoc,
    readNat_natChars,
    readSeq_seqChars readNat natChars readNat_natChars,
    readSeq_seqChars readLC lcChars readLC_lcChars,
    readSeq_seqChars_closed readNat natChars readNat_natChars,
    readSeq_seqChars_closed readLC lcChars readLC_lcChars]

theorem M_bind_ok {α β : Type} (a : α) (l : List Effect) (f : α → M β) :
    M.bind (Res.ok a, l) f = ((f a).1, l ++ (f a).2) := rfl

theorem M_bind_err {α β : Type} (e : CLIError) (l : List Effect)
    (f : α → M β) : M.bind (Res.err e, l) f = (Res.err e, l) := rfl

theorem M_bind_panicked {α β : Type} (l : List Effect) (f : α → M β) :
    M.bind (Res.panicked, l) f = (Res.panicked, l) := rfl

theorem bind_eq_M_bind {α β : Type} (x : M α) (f : α → M β) :
    (x >>= f) = M.bind x f := rfl

theorem pure_eq_M {α : Type} (a : α) : (pure a : M α) = (Res.ok a, []) := rfl

theorem libStage_eq (env : Env) (name : String) (pp od : FsPath) :
    BuildCommand.libStage env name pp od =
      if env.libExists pp then
        match env.parseProgramWithoutInput name
            (pp ++ [SOURCE_DIRECTORY_NAME, LIB_FILE_NAME]) od with
        | Except.ok _ => (Res.ok (), [Effect.compileLib name
            (pp ++ [SOURCE_DIRECTORY_NAME, LIB_FILE_NAME]) od])
        | Except.error e => (Res.err e, [Effect.compileLib name
            (pp ++ [SOURCE_DIRECTORY_NAME, LIB_FILE_NAME]) od])
      else (Res.ok (), []) := by
  unfold BuildCommand.libStage
  split
  · cases h : env.parseProgramWithoutInput name
        (pp ++ [SOURCE_DIRECTORY_NAME, LIB_FILE_NAME]) od <;>
      simp [h, bind_eq_M_bind, M.bind, liftE, emit, pure_eq_M]
  · rfl

theorem M_pair_eq {α : Type} (r1 r2 : Res α) (l1 l2 : List Effect) :
    (@Eq (M α) (r1, l1) (r2, l2)) = (r1 = r2 ∧ l1 = l2) :=
  Prod.mk.injEq r1 l1 r2 l2

theorem mainStage_ok_inv (env : Env) (name : String) (path pp od : FsPath)
    (p : Program) (b : Bool) (tr : List Effect)
    (h : BuildCommand.mainStage env name path pp od = (Res.ok (p, b), tr)) :
    ∃ input_string state_string program_checksum cs json serialized,
      env.createOutputsDirectory pp = Except.ok () ∧
      env.readInputFile name path = Except.ok input_string ∧
      env.readStateFile name path = Except.ok state_string ∧
      env.parseProgramWithInput name
        (pp ++ [SOURCE_DIRECTORY_NAME, MAIN_FILE_NAME]) od
        input_string state_string = Except.ok p ∧
      env.checksum p = Except.ok program_checksum ∧
      env.compileConstraints p ⟨[], [], [], [], []⟩ = Except.ok cs ∧
      (SerializedCircuit.from cs).to_json_string = Except.ok json ∧
      env.writeCircuitFile name path json = Except.ok () ∧
      env.readCircuitFile name pp = Except.ok serialized ∧
      ((env.checksumFileExists name pp = true ∧
        ∃ previous_checksum,
          env.readChecksumFile name pp = Except.ok previous_checksum ∧
          b = (program_checksum != previous_checksum)) ∨
       (env.checksumFileExists name pp = false ∧ b = true)) ∧
      (b = true →
        env.writeChecksumFile name path program_checksum = Except.ok ()) ∧
      tr = mainTraceBase name path pp od p json ++
        (if env.checksumFileExists name pp then
          [Effect.readChecksum name pp] else []) ++
        (if b then
          [Effect.writeChecksum name path program_checksum] else []) := by
  unfold BuildCommand.mainStage at h
  cases h0 : env.createOutputsDirectory pp with
  | error e0 =>
    simp [h0, liftE, emit, M.bind, bind_eq_M_bind, pure_eq_M,
      M_pair_eq] at h
  | ok u0 =>
  cases u0
  cases h1 : env.readInputFile name path with
  | error e1 =>
    simp [h0, h1, liftE, emit, M.bind, bind_eq_M_bind, pure_eq_M,
      M_pair_eq] at h
  | ok input_string =>
  cases h2 : env.readStateFile name path with
  | error e2 =>
    simp [h0, h1, h2, liftE, emit, M.bind, bind_eq_M_bind, pure_eq_M,
      M_pair_eq] at h
  | ok state_string =>
  cases h3 : env.parseProgramWithInput name
      (pp ++ [SOURCE_DIRECTORY_NAME, MAIN_FILE_NAME]) od
      input_string state_string with
  | error e3 =>
    simp [h0, h1, h2, h3, liftE, emit, M.bind, bind_eq_M_bind, pure_eq_M,
      M_pair_eq] at h
  | ok program =>
  cases h4 : env.checksum program with
  | error e4 =>
    simp [h0, h1, h2, h3, h4, liftE, emit, M.bind, bind_eq_M_bind,
      pure_eq_M, M_pair_eq] at h
  | ok program_checksum =>
  cases h5 : env.compileConstraints program ⟨[], [], [], [], []⟩ with
  | error e5 =>
    simp [h0, h1, h2, h3, h4, h5, liftE, emit, M.bind, bind_eq_M_bind,
      pure_eq_M, M_pair_eq] at h
  | ok cs =>
  cases h6 : (SerializedCircuit.from cs).to_json_string with
  | error e6 =>
    simp [h0, h1, h2, h3, h4, h5, h6, liftE, unwrapE, emit, M.bind,
      bind_eq_M_bind, pure_eq_M, M_pair_eq] at h
  | ok json =>
  cases h7 : env.writeCircuitFile name path json with
  | error e7 =>
    simp [h0, h1, h2, h3, h4, h5, h6, h7, liftE, unwrapE, emit, M.bind,
      bind_eq_M_bind, pure_eq_M, M_pair_eq] at h
  | ok u7 =>
  cases u7
  cases h8 : env.readCircuitFile name pp with
  | error e8 =>
    simp [h0, h1, h2, h3, h4, h5, h6, h7, h8, liftE, unwrapE, emit, M.bind,
      bind_eq_M_bind, pure_eq_M, M_pair_eq] at h
  | ok serialized =>
  cases h9 : SerializedCircuit.from_json_string serialized with
  | error e9 =>
    simp [h0, h1, h2, h3, h4, h5, h6, h7, h8, h9, liftE, unwrapE, emit,
      M.bind, bind_eq_M_bind, pure_eq_M, M_pair_eq] at h
  | ok deserialized =>
  cases hex : env.checksumFileExists name pp with
  | false =>
    cases hwr : env.writeChecksumFile name path program_checksum with
    | error ew =>
      simp [h0, h1, h2, h3, h4, h5, h6, h7, h8, h9, hex, hwr,
        CircuitSynthesizer.try_from, liftE, unwrapE, emit, M.bind,
        bind_eq_M_bind, pure_eq_M, M_pair_eq] at h
    | ok uw =>
      cases uw
      simp [h0, h1, h2, h3, h4, h5, h6, h7, h8, h9, hex, hwr,
        CircuitSynthesizer.try_from, liftE, unwrapE, emit, M.bind,
        bind_eq_M_bind, pure_eq_M, M_pair_eq] at h
      obtain ⟨⟨hp, hb⟩, htr⟩ := h
      subst hp
      subst hb
      subst htr
      refine ⟨input_string, state_string, program_checksum, cs, json,
        serialized, ?_⟩
      simp [mainTraceBase, h3, h4, h5, h6, h7, hwr, hex]
  | true =>
    cases hrd : env.readChecksumFile name pp with
    | error er =>
      simp [h0, h1, h2, h3, h4, h5, h6, h7, h8, h9, hex, hrd,
        CircuitSynthesizer.try_from, liftE, unwrapE, emit, M.bind,
        bind_eq_M_bind, pure_eq_M, M_pair_eq] at h
    | ok previous_checksum =>
      by_cases hbq : program_checksum = previous_checksum
      · simp [h0, h1, h2, h3, h4, h5, h6, h7, h8, h9, hex, hrd, hbq,
          CircuitSynthesizer.try_from, liftE, unwrapE, emit, M.bind,
          bind_eq_M_bind, pure_eq_M, M_pair_eq] at h
        obtain ⟨⟨hp, hb⟩, htr⟩ := h
        subst hp
        subst hb
        subst htr
        refine ⟨input_string, state_string, previous_checksum, cs, json,
          serialized, ?_⟩
        simp [mainTraceBase, h3, h4, h5, h6, h7, hex, hrd, hbq]
      · cases hwr : env.writeChecksumFile name path program_checksum with
        | error ew =>
          simp [h0, h1, h2, h3, h4, h5, h6, h7, h8, h9, hex, hrd, hbq, hwr,
            CircuitSynthesizer.try_from, liftE, unwrapE, emit, M.bind,
            bind_eq_M_bind, pure_eq_M, M_pair_eq] at h
        | ok uw =>
          cases uw
          simp [h0, h1, h2, h3, h4, h5, h6, h7, h8, h9, hex, hrd, hbq, hwr,
            CircuitSynthesizer.try_from, liftE, unwrapE, emit, M.bind,
            bind_eq_M_bind, pure_eq_M, M_pair_eq] at h
          obtain ⟨⟨hp, hb⟩, htr⟩ := h
          subst hp
          subst hb
          subst htr
          refine ⟨input_string, state_string, program_checksum, cs, json,
            serialized, ?_⟩
          simp [mainTraceBase, h3, h4, h5, h6, h7, hwr, hex, hrd, hbq,
            bne_iff_ne]

theorem libStage_ok_inv (env : Env) (name : String) (pp od : FsPath)
    (u : Unit) (ltr : List Effect)
    (h : BuildCommand.libStage env name pp od = (Res.ok u, ltr)) :
    ltr = [] ∨ ltr = [Effect.compileLib name
      (pp ++ [SOURCE_DIRECTORY_NAME, LIB_FILE_NAME]) od] := by
  unfold BuildCommand.libStage at h
  by_cases hle : env.libExists pp
  · cases hpe : env.parseProgramWithoutInput name
        (pp ++ [SOURCE_DIRECTORY_NAME, LIB_FILE_NAME]) od with
    | error e =>
      simp [hle, hpe, liftE, emit, M.bind, bind_eq_M_bind, pure_eq_M,
        M_pair_eq] at h
    | ok q =>
      simp [hle, hpe, liftE, emit, M.bind, bind_eq_M_bind, pure_eq_M,
        M_pair_eq] at h
      exact Or.inr h.symm
  · simp [hle, pure_eq_M, M_pair_eq] at h
    exact Or.inl h

theorem output_ok_inv (env : Env) (path : FsPath)
    (r : Option (Program × Bool)) (tr : List Effect)
    (h : BuildCommand.output env path = (Res.ok r, tr)) :
    ∃ name ltr,
      env.manifestName path = Except.ok name ∧
      (ltr = [] ∨ ltr = [Effect.compileLib name
        (sanitizedPackagePath env path ++
          [SOURCE_DIRECTORY_NAME, LIB_FILE_NAME])
        (sanitizedPackagePath env path ++ [OUTPUTS_DIRECTORY_NAME])]) ∧
      ((env.mainExists (sanitizedPackagePath env path) = false ∧
        r = none ∧ tr = ltr) ∨
       (env.mainExists (sanitizedPackagePath env path) = true ∧
        ∃ p b mtr, BuildCommand.mainStage env name path
            (sanitizedPackagePath env path)
            (sanitizedPackagePath env path ++ [OUTPUTS_DIRECTORY_NAME]) =
            (Res.ok (p, b), mtr) ∧
          r = some (p, b) ∧ tr = ltr ++ mtr)) := by
  unfold BuildCommand.output at h
  cases hm : env.manifestName path with
  | error e =>
    simp [hm, liftE, M.bind, bind_eq_M_bind, pure_eq_M, M_pair_eq] at h
  | ok name =>
    simp only [hm, liftE, M.bind, bind_eq_M_bind] at h
    cases hl : BuildCommand.libStage env name (sanitizedPackagePath env path)
        (sanitizedPackagePath env path ++ [OUTPUTS_DIRECTORY_NAME]) with
    | mk lr ltr =>
      cases lr with
      | err e =>
        simp [hl, M.bind, pure_eq_M, M_pair_eq] at h
      | panicked =>
        simp [hl, M.bind, pure_eq_M, M_pair_eq] at h
      | ok u =>
        cases u
        cases hme : env.mainExists (sanitizedPackagePath env path) with
        | false =>
          simp [hl, hme, M.bind, bind_eq_M_bind, pure_eq_M, M_pair_eq] at h
          obtain ⟨hr, htr⟩ := h
          exact ⟨name, ltr, rfl, libStage_ok_inv env name _ _ _ ltr hl,
            Or.inl ⟨rfl, hr.symm, htr.symm⟩⟩
        | true =>
          cases hms : BuildCommand.mainStage env name path
              (sanitizedPackagePath env path)
              (sanitizedPackagePath env path ++
                [OUTPUTS_DIRECTORY_NAME]) with
          | mk mr mtr =>
            cases mr with
            | err e =>
              simp [hl, hme, hms, M.bind, bind_eq_M_bind, pure_eq_M,
                M_pair_eq] at h
            | panicked =>
              simp [hl, hme, hms, M.bind, bind_eq_M_bind, pure_eq_M,
                M_pair_eq] at h
            | ok pb =>
              obtain ⟨p, b⟩ := pb
              simp [hl, hme, hms, M.bind, bind_eq_M_bind, pure_eq_M,
                M_pair_eq] at h
              obtain ⟨hr, htr⟩ := h
              exact ⟨name, ltr, rfl,
                libStage_ok_inv env name _ _ _ ltr hl,
                Or.inr ⟨rfl, p, b, mtr, hms, hr.symm, htr.symm⟩⟩

/-- C1: a build that returns a value returns `None` exactly when no main
source file exists at the (sanitized) package path; in that case no outputs
directory is created, and when a main source exists a successful build
returns `Some (program, checksum_changed)`. -/
theorem build_none_iff_no_main (env : Env) (path : FsPath)
    (r : Option (Program × Bool)) (tr : List Effect)
    (h : BuildCommand.output env path = (Res.ok r, tr)) :
    (r = none ↔ env.mainExists (sanitizedPackagePath env path) = false) ∧
    (r = none → ∀ q, Effect.createOutputs q ∉ tr) ∧
    (env.mainExists (sanitizedPackagePath env path) = true →
      ∃ p b, r = some (p, b)) := by
  obtain ⟨name, ltr, hm, hlshape, hcases⟩ := output_ok_inv env path r tr h
  rcases hcases with ⟨hme, hr, htr⟩ | ⟨hme, p, b, mtr, hms, hr, htr⟩
  · subst hr
    subst htr
    refine ⟨by simp [hme], ?_, by simp [hme]⟩
    intro _ q hq
    rcases hlshape with h1 | h1 <;> subst h1 <;> simp at hq
  · subst hr
    exact ⟨by simp [hme], by simp, fun _ => ⟨p, b, rfl⟩⟩

/-- C2: for a successful main-file build, the reported changed flag is true
iff no prior checksum file exists at the package path, or the stored
checksum differs (plain string inequality) from the current program
checksum; with no prior checksum file the flag is always true. -/
theorem changed_flag_law (env : Env) (path : FsPath) (name : String)
    (p : Program) (b : Bool) (tr : List Effect) (c : String)
    (hm : env.manifestName path = Except.ok name)
    (h : BuildCommand.output env path = (Res.ok (some (p, b)), tr))
    (hc : env.checksum p = Except.ok c) :
    b = true ↔
      (env.checksumFileExists name (sanitizedPackagePath env path) = false ∨
       ∃ prev, env.readChecksumFile name (sanitizedPackagePath env path) =
           Except.ok prev ∧ c ≠ prev) := by
  obtain ⟨name', ltr, hm', hlshape, hcases⟩ := output_ok_inv env path _ tr h
  have hn : name = name' := Except.ok.inj (hm.symm.trans hm')
  subst hn
  rcases hcases with ⟨hme, hr, htr⟩ | ⟨hme, p', b', mtr, hms, hr, htr⟩
  · exact absurd hr (by simp)
  · obtain ⟨hp, hb⟩ : p = p' ∧ b = b' := by simpa using hr
    subst hp
    subst hb
    obtain ⟨i, s, pc, cs, json, ser, _, _, _, hparse, hck, _, _, _, _,
      hdis, _, _⟩ := mainStage_ok_inv env name path _ _ p b mtr hms
    have hpc : pc = c := Except.ok.inj (hck.symm.trans hc)
    subst hpc
    constructor
    · intro hb1
      rcases hdis with ⟨hex, prev, hrd, hbeq⟩ | ⟨hex, _⟩
      · refine Or.inr ⟨prev, hrd, ?_⟩
        rw [hb1] at hbeq
        have := hbeq.symm
        simpa [bne_iff_ne] using this
      · exact Or.inl hex
    · intro hor
      rcases hdis with ⟨hex, prev, hrd, hbeq⟩ | ⟨hex, hbt⟩
      · rcases hor with hex' | ⟨prev', hrd', hne⟩
        · rw [hex] at hex'
          exact absurd hex' (by simp)
        · have hpp : prev' = prev := Except.ok.inj (hrd'.symm.trans hrd)
          subst hpp
          rw [hbeq]
          simpa [bne_iff_ne] using hne
      · exact hbt

/-- C3: in a successful main-file build the checksum file is written iff
the changed flag is true, while the circuit file is written on every
main-file build. -/
theorem checksum_write_iff_changed (env : Env) (path : FsPath)
    (p : Program) (b : Bool) (tr : List Effect)
    (h : BuildCommand.output env path = (Res.ok (some (p, b)), tr)) :
    ((∃ n q s, Effect.writeChecksum n q s ∈ tr) ↔ b = true) ∧
    (∃ n q s, Effect.writeCircuit n q s ∈ tr) := by
  obtain ⟨name, ltr, hm, hlshape, hcases⟩ := output_ok_inv env path _ tr h
  rcases hcases with ⟨hme, hr, htr⟩ | ⟨hme, p', b', mtr, hms, hr, htr⟩
  · exact absurd hr (by simp)
  · obtain ⟨hp, hb⟩ : p = p' ∧ b = b' := by simpa using hr
    subst hp
    subst hb
    obtain ⟨i, s, pc, cs, json, ser, _, _, _, _, _, _, _, _, _, hdis, hwrt,
      htrm⟩ := mainStage_ok_inv env name path _ _ p b mtr hms
    subst htrm
    subst htr
    refine ⟨⟨?_, ?_⟩, ?_⟩
    · rintro ⟨n, q, s', hmem⟩
      by_contra hbf
      have hb0 : b = false := by
        cases b
        · rfl
        · exact absurd rfl hbf
      rcases hdis with ⟨hex, prev, hrd, hbeq⟩ | ⟨hex, hbt⟩
      · rcases hlshape with hl0 | hl0 <;> subst hl0 <;>
          simp [mainTraceBase, hex, hb0] at hmem
      · rw [hbt] at hb0
        exact absurd hb0 (by simp)
    · intro hb1
      refine ⟨name, path, pc, ?_⟩
      simp [mainTraceBase, hb1]
    · refine ⟨name, path, json, ?_⟩
      simp [mainTraceBase]

/-- C9: in a successful main-file build, constraint synthesis consumes the
very value the main compilation produced (a copy under value semantics),
and that same value is the Program returned to the caller. -/
theorem program_returned_from_main_compile (env : Env) (path : FsPath)
    (p : Program) (b : Bool) (tr : List Effect)
    (h : BuildCommand.output env path = (Res.ok (some (p, b)), tr)) :
    Effect.synthesize p ∈ tr ∧
    ∃ name input_string state_string,
      env.manifestName path = Except.ok name ∧
      env.parseProgramWithInput name
        (sanitizedPackagePath env path ++
          [SOURCE_DIRECTORY_NAME, MAIN_FILE_NAME])
        (sanitizedPackagePath env path ++ [OUTPUTS_DIRECTORY_NAME])
        input_string state_string = Except.ok p := by
  obtain ⟨name, ltr, hm, hlshape, hcases⟩ := output_ok_inv env path _ tr h
  rcases hcases with ⟨hme, hr, htr⟩ | ⟨hme, p', b', mtr, hms, hr, htr⟩
  · exact absurd hr (by simp)
  · obtain ⟨hp, hb⟩ : p = p' ∧ b = b' := by simpa using hr
    subst hp
    subst hb
    obtain ⟨i, s, pc, cs, json, ser, _, _, _, hparse, _, _, _, _, _, _, _,
      htrm⟩ := mainStage_ok_inv env name path _ _ p b mtr hms
    subst htrm
    subst htr
    exact ⟨by simp [mainTraceBase], name, i, s, hm, hparse⟩

/-- C10: `BuildCommand::parse` returns `Ok(())` for every argument-match
input, so no invocation is rejected at argument parsing. -/
theorem parse_always_ok (a : ArgMatches) :
    BuildCommand.parse a = Except.ok () := rfl

/-- C4: circuit codec round-trip — encoding any constraint system
(`SerializedCircuit::from` then `to_json_string`) and decoding the result
(`from_json_string` then `CircuitSynthesizer::try_from`) yields a constraint
system equal to the original, in particular with the same constraint count
and per-constraint term structure. -/
theorem circuit_codec_roundtrip (cs : CircuitSynthesizer) :
    ∃ json sc cs',
      (SerializedCircuit.from cs).to_json_string = Except.ok json ∧
      SerializedCircuit.from_json_string json = Except.ok sc ∧
      CircuitSynthesizer.try_from sc = Except.ok cs' ∧
      cs' = cs ∧
      cs'.num_constraints = cs.num_constraints ∧
      cs'.at_ = cs.at_ ∧ cs'.bt = cs.bt ∧ cs'.ct = cs.ct := by
  refine ⟨_, SerializedCircuit.from cs, cs, rfl,
    from_json_string_to_json_string _ _ rfl, ?_, rfl, rfl, rfl, rfl, rfl⟩
  cases cs
  rfl

/-- C7: if a library source exists and its compilation fails, the build
returns that error and its trace has no outputs-directory creation, no
input or state read, and no main compilation. -/
theorem lib_error_aborts (env : Env) (path : FsPath) (name : String)
    (e : CLIError)
    (hm : env.manifestName path = Except.ok name)
    (hle : env.libExists (sanitizedPackagePath env path) = true)
    (hpe : env.parseProgramWithoutInput name
        (sanitizedPackagePath env path ++
          [SOURCE_DIRECTORY_NAME, LIB_FILE_NAME])
        (sanitizedPackagePath env path ++ [OUTPUTS_DIRECTORY_NAME]) =
        Except.error e) :
    (BuildCommand.output env path).1 = Res.err e ∧
    ∀ ef ∈ (BuildCommand.output env path).2,
      (∀ q, ef ≠ Effect.createOutputs q) ∧
      (∀ n q, ef ≠ Effect.readInput n q) ∧
      (∀ n q, ef ≠ Effect.readState n q) ∧
      (∀ n f o, ef ≠ Effect.compileMain n f o) := by
  have hout : BuildCommand.output env path = (Res.err e,
      [Effect.compileLib name
        (sanitizedPackagePath env path ++
          [SOURCE_DIRECTORY_NAME, LIB_FILE_NAME])
        (sanitizedPackagePath env path ++ [OUTPUTS_DIRECTORY_NAME])]) := by
    unfold BuildCommand.output BuildCommand.libStage
    simp [hm, hle, hpe, liftE, emit, M.bind, bind_eq_M_bind, pure_eq_M]
  rw [hout]
  refine ⟨rfl, ?_⟩
  intro ef hef
  simp only [List.mem_singleton] at hef
  subst hef
  exact ⟨by simp, by simp, by simp, by simp⟩

/-- C8 (amended): the program checksum is computed immediately after main
compilation and before constraint synthesis: when the checksum computation
fails, the build returns that error, and its trace shows that synthesis,
circuit persisting and decode-verification were never performed. -/
theorem checksum_computed_before_synthesis (env : Env) (path : FsPath)
    (name input_string state_string : String) (p : Program) (e : CLIError)
    (hm : env.manifestName path = Except.ok name)
    (hle : env.libExists (sanitizedPackagePath env path) = false)
    (hme : env.mainExists (sanitizedPackagePath env path) = true)
    (ho : env.createOutputsDirectory (sanitizedPackagePath env path) =
      Except.ok ())
    (hi : env.readInputFile name path = Except.ok input_string)
    (hs : env.readStateFile name path = Except.ok state_string)
    (hp : env.parseProgramWithInput name
        (sanitizedPackagePath env path ++
          [SOURCE_DIRECTORY_NAME, MAIN_FILE_NAME])
        (sanitizedPackagePath env path ++ [OUTPUTS_DIRECTORY_NAME])
        input_string state_string = Except.ok p)
    (hc : env.checksum p = Except.error e) :
    BuildCommand.output env path = (Res.err e,
      [Effect.createOutputs (sanitizedPackagePath env path),
       Effect.readInput name path, Effect.readState name path,
       Effect.compileMain name
         (sanitizedPackagePath env path ++
           [SOURCE_DIRECTORY_NAME, MAIN_FILE_NAME])
         (sanitizedPackagePath env path ++ [OUTPUTS_DIRECTORY_NAME])]) := by
  unfold BuildCommand.output BuildCommand.libStage BuildCommand.mainStage
  simp [hm, hle, hme, ho, hi, hs, hp, hc, liftE, emit, M.bind,
    bind_eq_M_bind, pure_eq_M]

/-- C5 (amended): when decoding the just-read circuit text fails
structurally, the build terminates abnormally (the source unwraps the
decode result) instead of returning a typed error value. -/
theorem decode_failure_panics (env : Env) (path : FsPath)
    (name input_string state_string serialized : String) (p : Program)
    (cs : CircuitSynthesizer) (e : CLIError)
    (hm : env.manifestName path = Except.ok name)
    (hle : env.libExists (sanitizedPackagePath env path) = false)
    (hme : env.mainExists (sanitizedPackagePath env path) = true)
    (ho : env.createOutputsDirectory (sanitizedPackagePath env path) =
      Except.ok ())
    (hi : env.readInputFile name path = Except.ok input_string)
    (hs : env.readStateFile name path = Except.ok state_string)
    (hp : env.parseProgramWithInput name
        (sanitizedPackagePath env path ++
          [SOURCE_DIRECTORY_NAME, MAIN_FILE_NAME])
        (sanitizedPackagePath env path ++ [OUTPUTS_DIRECTORY_NAME])
        input_string state_string = Except.ok p)
    (hc : env.checksum p = Except.ok "digest")
    (hcc : env.compileConstraints p ⟨[], [], [], [], []⟩ = Except.ok cs)
    (hwc : ∀ j, env.writeCircuitFile name path j = Except.ok ())
    (hrc : env.readCircuitFile name (sanitizedPackagePath env path) =
      Except.ok serialized)
    (hd : SerializedCircuit.from_json_string serialized = Except.error e) :
    (BuildCommand.output env path).1 = Res.panicked := by
  unfold BuildCommand.output BuildCommand.libStage BuildCommand.mainStage
  simp [hm, hle, hme, ho, hi, hs, hp, hc, hcc, hwc, hrc, hd,
    SerializedCircuit.to_json_string, liftE, unwrapE, emit, M.bind,
    bind_eq_M_bind, pure_eq_M]

theorem M_bind_trace_mem {α β : Type} (x : M α) (f : α → M β) (ef : Effect)
    (h : ef ∈ (M.bind x f).2) :
    ef ∈ x.2 ∨ ∃ a, x.1 = Res.ok a ∧ ef ∈ (f a).2 := by
  obtain ⟨r, l⟩ := x
  cases r with
  | ok a =>
    simp only [M.bind, List.mem_append] at h
    rcases h with h | h
    · exact Or.inl h
    · exact Or.inr ⟨a, rfl, h⟩
  | err e =>
    simp only [M.bind] at h
    exact Or.inl h
  | panicked =>
    simp only [M.bind] at h
    exact Or.inl h

theorem mem_emit (E ef : Effect) (h : ef ∈ (emit E).2) : ef = E := by
  simpa [emit] using h

theorem mem_liftE {α : Type} (x : Except CLIError α) (ef : Effect)
    (h : ef ∈ (liftE x).2) : False := by
  cases x <;> simp [liftE] at h

theorem mem_unwrapE {α : Type} (x : Except CLIError α) (ef : Effect)
    (h : ef ∈ (unwrapE x).2) : False := by
  cases x <;> simp [unwrapE] at h

theorem mem_pure {α : Type} (a : α) (ef : Effect)
    (h : ef ∈ (pure a : M α).2) : False := by
  simp [pure_eq_M] at h

theorem libStage_mem_spec (env : Env) (name : String) (pp od : FsPath)
    (ef : Effect) (h : ef ∈ (BuildCommand.libStage env name pp od).2) :
    ef = Effect.compileLib name
      (pp ++ [SOURCE_DIRECTORY_NAME, LIB_FILE_NAME]) od := by
  unfold BuildCommand.libStage at h
  by_cases hle : env.libExists pp
  · rw [if_pos hle] at h
    simp only [bind_eq_M_bind] at h
    rcases M_bind_trace_mem _ _ _ h with h | ⟨_, _, h⟩
    · exact mem_emit _ _ h
    rcases M_bind_trace_mem _ _ _ h with h | ⟨_, _, h⟩
    · exact (mem_liftE _ _ h).elim
    exact (mem_pure _ _ h).elim
  · rw [if_neg hle] at h
    exact (mem_pure _ _ h).elim

theorem mainStage_mem_spec (env : Env) (name : String) (path pp od : FsPath)
    (ef : Effect)
    (h : ef ∈ (BuildCommand.mainStage env name path pp od).2) :
    ef = Effect.createOutputs pp ∨
    ef = Effect.readInput name path ∨
    ef = Effect.readState name path ∨
    ef = Effect.compileMain name
      (pp ++ [SOURCE_DIRECTORY_NAME, MAIN_FILE_NAME]) od ∨
    (∃ q, ef = Effect.synthesize q) ∨
    (∃ j, ef = Effect.writeCircuit name path j) ∨
    ef = Effect.readCircuit name pp ∨
    ef = Effect.checkChecksum name pp ∨
    ef = Effect.readChecksum name pp ∨
    (∃ s, ef = Effect.writeChecksum name path s) := by
  unfold BuildCommand.mainStage at h
  simp only [bind_eq_M_bind] at h
  rcases M_bind_trace_mem _ _ _ h with h | ⟨_, _, h⟩
  · exact Or.inl (mem_emit _ _ h)
  rcases M_bind_trace_mem _ _ _ h with h | ⟨_, _, h⟩
  · exact (mem_liftE _ _ h).elim
  rcases M_bind_trace_mem _ _ _ h with h | ⟨_, _, h⟩
  · exact Or.inr (Or.inl (mem_emit _ _ h))
  rcases M_bind_trace_mem _ _ _ h with h | ⟨_, _, h⟩
  · exact (mem_liftE _ _ h).elim
  rcases M_bind_trace_mem _ _ _ h with h | ⟨_, _, h⟩
  · exact Or.inr (Or.inr (Or.inl (mem_emit _ _ h)))
  rcases M_bind_trace_mem _ _ _ h with h | ⟨_, _, h⟩
  · exact (mem_liftE _ _ h).elim
  rcases M_bind_trace_mem _ _ _ h with h | ⟨_, _, h⟩
  · exact Or.inr (Or.inr (Or.inr (Or.inl (mem_emit _ _ h))))
  rcases M_bind_trace_mem _ _ _ h with h | ⟨_, _, h⟩
  · exact (mem_liftE _ _ h).elim
  rcases M_bind_trace_mem _ _ _ h with h | ⟨_, _, h⟩
  · exact (mem_liftE _ _ h).elim
  rcases M_bind_trace_mem _ _ _ h with h | ⟨_, _, h⟩
  · exact Or.inr (Or.inr (Or.inr (Or.inr (Or.inl ⟨_, mem_emit _ _ h⟩))))
  rcases M_bind_trace_mem _ _ _ h with h | ⟨_, _, h⟩
  · exact (mem_liftE _ _ h).elim
  rcases M_bind_trace_mem _ _ _ h with h | ⟨_, _, h⟩
  · exact (mem_unwrapE _ _ h).elim
  rcases M_bind_trace_mem _ _ _ h with h | ⟨_, _, h⟩
  · exact Or.inr (Or.inr (Or.inr (Or.inr (Or.inr (Or.inl
      ⟨_, mem_emit _ _ h⟩)))))
  rcases M_bind_trace_mem _ _ _ h with h | ⟨_, _, h⟩
  · exact (mem_liftE _ _ h).elim
  rcases M_bind_trace_mem _ _ _ h with h | ⟨_, _, h⟩
  · exact Or.inr (Or.inr (Or.inr (Or.inr (Or.inr (Or.inr (Or.inl
      (mem_emit _ _ h)))))))
  rcases M_bind_trace_mem _ _ _ h with h | ⟨_, _, h⟩
  · exact (mem_liftE _ _ h).elim
  rcases M_bind_trace_mem _ _ _ h with h | ⟨_, _, h⟩
  · exact (mem_unwrapE _ _ h).elim
  rcases M_bind_trace_mem _ _ _ h with h | ⟨_, _, h⟩
  · exact (mem_unwrapE _ _ h).elim
  rcases M_bind_trace_mem _ _ _ h with h | ⟨_, _, h⟩
  · exact Or.inr (Or.inr (Or.inr (Or.inr (Or.inr (Or.inr (Or.inr (Or.inl
      (mem_emit _ _ h))))))))
  by_cases hex : env.checksumFileExists name pp = true
  · rw [if_pos hex] at h
    rcases M_bind_trace_mem _ _ _ h with h | ⟨_, _, h⟩
    · exact Or.inr (Or.inr (Or.inr (Or.inr (Or.inr (Or.inr (Or.inr
        (Or.inr (Or.inl (mem_emit _ _ h)))))))))
    rcases M_bind_trace_mem _ _ _ h with h | ⟨_, _, h⟩
    · exact (mem_liftE _ _ h).elim
    rcases M_bind_trace_mem _ _ _ h with h | ⟨y, _, h⟩
    · exact (mem_pure _ _ h).elim
    by_cases hcd : y = true
    · rw [if_pos hcd] at h
      rcases M_bind_trace_mem _ _ _ h with h | ⟨_, _, h⟩
      · exact Or.inr (Or.inr (Or.inr (Or.inr (Or.inr (Or.inr (Or.inr
          (Or.inr (Or.inr ⟨_, mem_emit _ _ h⟩))))))))
      rcases M_bind_trace_mem _ _ _ h with h | ⟨_, _, h⟩
      · exact (mem_liftE _ _ h).elim
      · exact (mem_pure _ _ h).elim
    · rw [if_neg hcd] at h
      rcases M_bind_trace_mem _ _ _ h with h | ⟨_, _, h⟩
      · exact (mem_pure _ _ h).elim
      · exact (mem_pure _ _ h).elim
  · rw [if_neg hex] at h
    rcases M_bind_trace_mem _ _ _ h with h | ⟨y, hy, h⟩
    · exact (mem_pure _ _ h).elim
    by_cases hcd : y = true
    · rw [if_pos hcd] at h
      rcases M_bind_trace_mem _ _ _ h with h | ⟨_, _, h⟩
      · exact Or.inr (Or.inr (Or.inr (Or.inr (Or.inr (Or.inr (Or.inr
          (Or.inr (Or.inr ⟨_, mem_emit _ _ h⟩))))))))
      rcases M_bind_trace_mem _ _ _ h with h | ⟨_, _, h⟩
      · exact (mem_liftE _ _ h).elim
      · exact (mem_pure _ _ h).elim
    · rw [if_neg hcd] at h
      rcases M_bind_trace_mem _ _ _ h with h | ⟨_, _, h⟩
      · exact (mem_pure _ _ h).elim
      · exact (mem_pure _ _ h).elim

/-- C6 (amended): the library path, outputs-directory creation, main-file
path, circuit read-back and checksum existence/read resolve against the
sanitized package path, but the input and state reads, the circuit write
and the checksum write resolve against the original (unsanitized) path. -/
theorem effects_resolve_expected_paths (env : Env) (path : FsPath)
    (ef : Effect) (h : ef ∈ (BuildCommand.output env path).2) :
    effectPathSpec env path ef := by
  unfold BuildCommand.output at h
  simp only [bind_eq_M_bind] at h
  rcases M_bind_trace_mem _ _ _ h with h | ⟨name, _, h⟩
  · exact (mem_liftE _ _ h).elim
  rcases M_bind_trace_mem _ _ _ h with h | ⟨_, _, h⟩
  · have hl := libStage_mem_spec env name _ _ ef h
    subst hl
    simp [effectPathSpec]
  by_cases hme : env.mainExists (sanitizedPackagePath env path) = true
  · rw [if_pos hme] at h
    rcases M_bind_trace_mem _ _ _ h with h | ⟨_, _, h⟩
    · rcases mainStage_mem_spec env name path _ _ ef h with
        h1 | h1 | h1 | h1 | ⟨q, h1⟩ | ⟨j, h1⟩ | h1 | h1 | h1 | ⟨s, h1⟩ <;>
        subst h1 <;> simp [effectPathSpec]
    · exact (mem_pure _ _ h).elim
  · rw [if_neg hme] at h
    exact (mem_pure _ _ h).elim

/-- C5 (counterexample): with a circuit file that reads back as undecodable
text, decoding fails with a typed codec error, yet the build terminates
abnormally instead of returning that error to the caller. -/
theorem decode_failure_not_returned_counterexample :
    SerializedCircuit.from_json_string "z" =
      Except.error (CLIError.codecError "input count") ∧
    (BuildCommand.output envBadCircuit []).1 = Res.panicked ∧
    (BuildCommand.output envBadCircuit []).1 ≠
      Res.err (CLIError.codecError "input count") := by
  refine ⟨by decide, by decide, by decide⟩

/-- C6 (counterexample): with a working directory that is a file, the input
file read resolves against the original file path, not against the
sanitized package path (its parent), which the build never reads the input
from. -/
theorem input_read_uses_original_path_counterexample :
    envFileRoot.isFile ["a", "b"] = true ∧
    sanitizedPackagePath envFileRoot ["a", "b"] = ["a"] ∧
    Effect.readInput "pkg" ["a", "b"] ∈
      (BuildCommand.output envFileRoot ["a", "b"]).2 ∧
    Effect.readInput "pkg" ["a"] ∉
      (BuildCommand.output envFileRoot ["a", "b"]).2 := by
  refine ⟨by decide, by decide, by decide, by decide⟩

/-- C8 (counterexample): when both the checksum computation and constraint
synthesis would fail, the build returns the checksum error — the checksum
is computed before synthesis, which never runs (the trace stops at main
compilation). -/
theorem checksum_error_wins_counterexample :
    envDoubleFail.compileConstraints ⟨1⟩ ⟨[], [], [], [], []⟩ =
      Except.error (CLIError.synthesisError "synthesis failed") ∧
    BuildCommand.output envDoubleFail [] =
      (Res.err (CLIError.ioError "checksum failed"),
       [Effect.createOutputs [], Effect.readInput "pkg" [],
        Effect.readState "pkg" [],
        Effect.compileMain "pkg" ["src", "main.leo"] ["outputs"]]) ∧
    (BuildCommand.output envDoubleFail []).1 ≠
      Res.err (CLIError.synthesisError "synthesis failed") := by
  refine ⟨by decide, by decide, by decide⟩

/-- Witness for C1 at `envNoMain`: the build returns `none`, no outputs
directory is created. -/
theorem build_none_iff_no_main_witness :
    ((none : Option (Program × Bool)) = none ↔
      envNoMain.mainExists (sanitizedPackagePath envNoMain []) = false) ∧
    ((none : Option (Program × Bool)) = none →
      ∀ q, Effect.createOutputs q ∉ ([] : List Effect)) ∧
    (envNoMain.mainExists (sanitizedPackagePath envNoMain []) = true →
      ∃ p b, (none : Option (Program × Bool)) = some (p, b)) :=
  build_none_iff_no_main envNoMain [] none [] (by decide)

/-- Witness for C2 at `envOk`: a first build with no prior checksum file
reports changed. -/
theorem changed_flag_law_witness :
    true = true ↔
      (envOk.checksumFileExists "pkg" (sanitizedPackagePath envOk []) =
        false ∨
       ∃ prev, envOk.readChecksumFile "pkg" (sanitizedPackagePath envOk []) =
           Except.ok prev ∧ "digest" ≠ prev) :=
  changed_flag_law envOk [] "pkg" ⟨1⟩ true trOk "digest" rfl (by decide) rfl

/-- Witness for C3 at `envOk`: the checksum file is written (flag true) and
the circuit file is written. -/
theorem checksum_write_iff_changed_witness :
    ((∃ n q s, Effect.writeChecksum n q s ∈ trOk) ↔ true = true) ∧
    (∃ n q s, Effect.writeCircuit n q s ∈ trOk) :=
  checksum_write_iff_changed envOk [] ⟨1⟩ true trOk (by decide)

/-- Witness for C9 at `envOk`: the returned program is the parsed main
program and is the one synthesized. -/
theorem program_returned_from_main_compile_witness :
    Effect.synthesize ⟨1⟩ ∈ trOk ∧
    ∃ name input_string state_string,
      envOk.manifestName [] = Except.ok name ∧
      envOk.parseProgramWithInput name
        (sanitizedPackagePath envOk [] ++
          [SOURCE_DIRECTORY_NAME, MAIN_FILE_NAME])
        (sanitizedPackagePath envOk [] ++ [OUTPUTS_DIRECTORY_NAME])
        input_string state_string = Except.ok ⟨1⟩ :=
  program_returned_from_main_compile envOk [] ⟨1⟩ true trOk (by decide)

/-- Witness for C7 at `envLibErr`: a failing library compile aborts the
build before any main-stage action. -/
theorem lib_error_aborts_witness :
    (BuildCommand.output envLibErr []).1 =
      Res.err (CLIError.compileError "bad lib") ∧
    ∀ ef ∈ (BuildCommand.output envLibErr []).2,
      (∀ q, ef ≠ Effect.createOutputs q) ∧
      (∀ n q, ef ≠ Effect.readInput n q) ∧
      (∀ n q, ef ≠ Effect.readState n q) ∧
      (∀ n f o, ef ≠ Effect.compileMain n f o) :=
  lib_error_aborts envLibErr [] "pkg" (CLIError.compileError "bad lib")
    rfl rfl rfl

/-- Witness for C8 (amended) at `envDoubleFail`. -/
theorem checksum_computed_before_synthesis_witness :
    BuildCommand.output envDoubleFail [] =
      (Res.err (CLIError.ioError "checksum failed"),
       [Effect.createOutputs (sanitizedPackagePath envDoubleFail []),
        Effect.readInput "pkg" [], Effect.readState "pkg" [],
        Effect.compileMain "pkg"
          (sanitizedPackagePath envDoubleFail [] ++
            [SOURCE_DIRECTORY_NAME, MAIN_FILE_NAME])
          (sanitizedPackagePath envDoubleFail [] ++
            [OUTPUTS_DIRECTORY_NAME])]) :=
  checksum_computed_before_synthesis envDoubleFail [] "pkg" "in" "st" ⟨1⟩
    (CLIError.ioError "checksum failed") rfl rfl rfl rfl rfl rfl rfl rfl

/-- Witness for C5 (amended) at `envBadCircuit`. -/
theorem decode_failure_panics_witness :
    (BuildCommand.output envBadCircuit []).1 = Res.panicked :=
  decode_failure_panics envBadCircuit [] "pkg" "in" "st" "z" ⟨1⟩
    ⟨[], [], [], [], []⟩ (CLIError.codecError "input count")
    rfl rfl rfl rfl rfl rfl rfl rfl rfl (fun _ => rfl) rfl (by decide)

/-- Witness for C6 (amended) at `envFileRoot`: the input read effect
satisfies the path table (it uses the original path). -/
theorem effects_resolve_expected_paths_witness :
    effectPathSpec envFileRoot ["a", "b"]
      (Effect.readInput "pkg" ["a", "b"]) :=
  effects_resolve_expected_paths envFileRoot ["a", "b"]
    (Effect.readInput "pkg" ["a", "b"]) (by decide)
